import Mathlib

/-!
Verification of the migration reconciliation engine of `postgres-migrations-oasis`
(`src/migrate.ts`, `src/files-loader.ts`) against its natural-language specification.

The TypeScript source is shallowly embedded: pure functions become Lean functions,
the database session and the missing collaborators (`pg`, `run-migration.ts`) are
modelled as explicit data (a `Session` record carrying the connect result, the
catalog contents, the ledger rows and the per-migration executor result), and
exceptions become `Except` values.  JavaScript arrays become `List`, JavaScript
object/array indexing by a numeric key becomes `jsIndex`.
-/

/-- A migration unit (`Migration` of types.ts): id, file name, name, content hash
and executable body.  Ledger rows mirror the same fields, so the same structure is
used for `AppliedMigrationRecord`s returned by the ledger query. -/
structure Migration where
  id : Int
  fileName : String
  name : String
  hash : String
  body : String
deriving Repr, DecidableEq

/-- The error taxonomy of the engine.  `migrationFailed` is the single top-level
wrapper built in `runMigrations`' catch block (`Migration failed. Reason: ...`,
with `cause` attached); the other constructors are the errors thrown inside the
try block. -/
inductive MigrateError where
  | nonConsecutiveId (fileName : String)
  | hashMismatch (fileNames : List String)
  | malformedUnit (fileName : String)
  | connectionError (msg : String)
  | applyError (msg : String)
  | migrationFailed (cause : MigrateError)
deriving Repr, DecidableEq

/-- JavaScript indexing `xs[i]` of an array by a numeric key: out-of-range and
negative indices yield `undefined` (here `none`). -/
def jsIndex (rows : List Migration) (i : Int) : Option Migration :=
  if i < 0 then none else rows.get? i.toNat

/-- The callback `indexNotMatch` of `validateMigrations` (migrate.ts line 134):
a migration is out of place when its id differs from its array position. -/
def indexNotMatch (migration : Migration) (index : Nat) : Bool :=
  migration.id != (index : Int)

/-- The callback `invalidHash` of `validateMigrations` (migrate.ts line 136):
a migration is invalid when the applied record at its id exists and carries a
different hash. -/
def invalidHash (appliedMigrations : Int → Option Migration) (migration : Migration) : Bool :=
  match appliedMigrations migration.id with
  | some appliedMigration => appliedMigration.hash != migration.hash
  | none => false

/-- `migrations.find(indexNotMatch)` (migrate.ts line 142): `Array.prototype.find`
hands the callback each element together with its index and returns the first
element on which the callback is truthy. -/
def findNotMatching (index : Nat) : List Migration → Option Migration
  | [] => none
  | m :: rest => if indexNotMatch m index then some m else findNotMatching (index + 1) rest

/-- `validateMigrations` (migrate.ts lines 130-160): first assert migration ids
are consecutive integers (throwing `Found a non-consecutive migration ID on file:
...` at the first offender), then assert hashes of already-applied migrations are
unchanged (collecting every offender into one `Hashes don't match ...` error). -/
def validateMigrations (migrations : List Migration)
    (appliedMigrations : Int → Option Migration) : Except MigrateError Unit :=
  match findNotMatching 0 migrations with
  | some notMatchingId => .error (.nonConsecutiveId notMatchingId.fileName)
  | none =>
    let invalidHashes := migrations.filter (invalidHash appliedMigrations)
    if invalidHashes.length > 0 then
      .error (.hashMismatch (invalidHashes.map (·.fileName)))
    else
      .ok ()

/-- `filterMigrations` (migrate.ts lines 163-171): keep the migrations whose id
has no applied record (`!appliedMigrations[migration.id]`; an absent entry is
`undefined`, hence falsy, and a present row object is always truthy). -/
def filterMigrations (migrations : List Migration)
    (appliedMigrations : Int → Option Migration) : List Migration :=
  migrations.filter (fun migration => (appliedMigrations migration.id).isNone)

/-- One row of `pg_catalog.pg_class`, restricted to the columns the engine's
existence query reads plus the namespace the specification talks about. -/
structure Relation where
  relname : String
  relnamespace : String
  relkind : Char
deriving Repr, DecidableEq

/-- `doesTableExist` (migrate.ts lines 187-198): `SELECT EXISTS (SELECT 1 FROM
pg_catalog.pg_class c WHERE c.relname = tableName AND c.relkind = 'r')`.  The
query filters only on relation name and relation kind; it has no condition on
`relnamespace`. -/
def doesTableExist (catalog : List Relation) (tableName : String) : Bool :=
  catalog.any (fun c => c.relname == tableName && c.relkind == 'r')

/-- The comparator-driven JavaScript `sort((a, b) => a.id - b.id)` and the SQL
`ORDER BY id`: a stable ascending sort by id. -/
def sortById (rows : List Migration) : List Migration :=
  List.insertionSort (fun a b => a.id ≤ b.id) rows

instance : IsTotal Migration (fun a b => a.id ≤ b.id) :=
  ⟨fun a b => Int.le_total a.id b.id⟩

instance : IsTrans Migration (fun a b => a.id ≤ b.id) :=
  ⟨fun _ _ _ hab hbc => le_trans hab hbc⟩

/-- `fetchAppliedMigrationFromDB` (migrate.ts lines 106-127): when the ledger
table exists, `SELECT * FROM tableName ORDER BY id` and return the row array;
otherwise return the empty array. -/
def fetchAppliedMigrationFromDB (migrationTableName : String) (catalog : List Relation)
    (ledgerRows : List Migration) : List Migration :=
  if doesTableExist catalog migrationTableName then sortById ledgerRows else []

/-- A JavaScript line terminator, which `.` in a regular expression (without the
`s` flag) does not match. -/
def isLineTerminator (c : Char) : Bool :=
  c = '\n' || c = '\r' || c = ' ' || c = ' '

/-- `isValidFile` (files-loader.ts line 9): `/.(sql|js)$/gi.test(fileName)`.  The
regex literal is evaluated afresh on every call, so its `lastIndex` is 0 each
time and the `g` flag has no effect: the test is a pure search for a match, and
with the `$` anchor it holds exactly when the name ends in `sql` or `js`
(case-insensitively) preceded by one character `.` can match. -/
def isValidFile (fileName : String) : Bool :=
  match (fileName.data.map Char.toLower).reverse with
  | 'l' :: 'q' :: 's' :: c :: _ => !(isLineTerminator c)
  | 's' :: 'j' :: c :: _ => !(isLineTerminator c)
  | _ => false

/-- `path.resolve(directory, fileName)` for a plain file name: join with the
directory.  Only the preserved trailing extension matters to the engine. -/
def resolvePath (directory fileName : String) : String :=
  directory ++ "/" ++ fileName

/-- Stated from the spec's words, for comparison with `isValidFile`: a file name
with a recognized extension is one ending in `.sql` or `.js` (case-insensitively,
matching the `i` flag of the source's regex). -/
def specRecognizedExtension (fileName : String) : Bool :=
  match (fileName.data.map Char.toLower).reverse with
  | 'l' :: 'q' :: 's' :: '.' :: _ => true
  | 's' :: 'j' :: '.' :: _ => true
  | _ => false

/-- Modelled from the spec: `migration-file.ts` is not under src/.  §4.1 parses
the migration id from the file name's leading ordinal.  The leading decimal
digit run of the name, when non-empty. -/
def parseOrdinal (fileName : String) : Option Nat :=
  let digits := fileName.data.takeWhile Char.isDigit
  if digits.isEmpty then none
  else some (digits.foldl (fun n c => n * 10 + (c.toNat - '0'.toNat)) 0)

/-- Modelled from the spec: the recognized source kinds are `.sql` and `.js`
files (§4.2(a), files-loader.ts line 9); the unit's name is the file name's
remainder after the ordinal, shown without the extension in §8's examples. -/
def stripRecognizedExt (s : String) : String :=
  match s.data.reverse with
  | 'l' :: 'q' :: 's' :: '.' :: rest => String.mk rest.reverse
  | 's' :: 'j' :: '.' :: rest => String.mk rest.reverse
  | _ => s

/-- Modelled from the spec: `load` of the missing migration-file.ts (§4.1) —
given source identity and body text, produce a MigrationUnit with `id` parsed
from the name's leading ordinal, `name` set to the remainder (separator and
recognized extension stripped, matching §8's example names), and `hash` computed
over the concatenation of name and body by the deterministic digest `hashFn`;
fail with a malformed-unit error when no ordinal parses. -/
def loadMigrationFile (hashFn : String → String) (fileName contents : String) :
    Except MigrateError Migration :=
  match parseOrdinal fileName with
  | none => .error (.malformedUnit fileName)
  | some n =>
    let name := stripRecognizedExt ((fileName.data.dropWhile Char.isDigit).dropWhile
      (fun c => c = '_' || c = '-') |> String.mk)
    .ok { id := (n : Int), fileName := fileName, name := name,
          hash := hashFn (name ++ contents), body := contents }

/-- Modelled from the spec: `loadRaw` of the missing migration-file.ts — the
synthetic construction path takes a literal identity and body without parsing
and hashes them identically to the parsed path (§4.1); its only call site builds
the bootstrap unit, whose id the spec fixes at 0 (§4.2(c)). -/
def loadRaw (hashFn : String → String) (fileName contents : String) : Migration :=
  { id := 0, fileName := fileName, name := fileName,
    hash := hashFn (fileName ++ contents), body := contents }

/-- The bootstrap body pushed by `load` (files-loader.ts lines 33-39): create the
ledger table if it does not already exist, parameterized only by the configured
table name. -/
def createMigrationTableSql (tableName : String) : String :=
  "CREATE TABLE IF NOT EXISTS \"" ++ tableName ++ "\" (\n      id integer PRIMARY KEY,\n      name varchar(100) UNIQUE NOT NULL,\n      hash varchar(40) NOT NULL, -- sha1 hex encoded hash of the file name and contents, to ensure it hasn\x27t been altered since applying the migration\n      executed_at timestamp DEFAULT current_timestamp\n    );\n    "

/-- The name of the bootstrap migration file (files-loader.ts line 32). -/
def bootstrapFileName : String := "0_create-migrations-table.sql"

/-- The bootstrap unit `load` appends (files-loader.ts lines 30-41). -/
def bootstrapMigration (hashFn : String → String) (tableName : String) : Migration :=
  loadRaw hashFn bootstrapFileName (createMigrationTableSql tableName)

/-- `load` (files-loader.ts lines 11-48): list the directory (modelled as the
association list `files` of name/content pairs a readable directory yields),
resolve each name against the directory and keep those passing `isValidFile`,
load each kept file (the loader reads the file's base name and contents), push
the bootstrap unit, and sort ascending by id. -/
def load (hashFn : String → String) (directory : String)
    (files : List (String × String)) (tableName : String) :
    Except MigrateError (List Migration) :=
  match (files.filter (fun f => isValidFile (resolvePath directory f.1))).mapM
      (fun f => loadMigrationFile hashFn f.1 f.2) with
  | .error e => .error e
  | .ok unorderedMigrations =>
    .ok (sortById (unorderedMigrations ++ [bootstrapMigration hashFn tableName]))

/-- The environment one `runMigrations` invocation runs against: the outcome of
`client.connect()`, the catalog and ledger contents the two queries see, the
behaviour of the `run-migration.ts` executor on each migration (`.ok` means the
body ran and the ledger row was inserted — the unit is committed), and the
outcome of `client.end()` (whose failure line 97-101 logs and swallows). -/
structure Session where
  connectResult : Option MigrateError
  catalog : List Relation
  ledgerRows : List Migration
  runMig : Migration → Except MigrateError Migration
  endResult : Option String

/-- The `for` loop of `runMigrations` (migrate.ts lines 79-84): run each pending
migration in order, pushing each result; the first failure aborts the loop.
Returns the loop's outcome together with the migrations attempted and the
migrations committed (attempted and succeeded), in order. -/
def applyLoop (runMig : Migration → Except MigrateError Migration) :
    List Migration → Except MigrateError (List Migration) × List Migration × List Migration
  | [] => (.ok [], [], [])
  | m :: rest =>
    match runMig m with
    | .error e => (.error e, [m], [])
    | .ok r =>
      let (res, att, suc) := applyLoop runMig rest
      (match res with
       | .ok rs => .ok (r :: rs)
       | .error e => .error e, m :: att, m :: suc)

/-- The observable outcome of one `runMigrations` call: the value returned or
the (wrapped) error thrown, which migrations the loop attempted, which it
committed, and whether the `finally` block attempted `client.end()`. -/
structure RunOutcome where
  result : Except MigrateError (List Migration)
  attempted : List Migration
  committed : List Migration
  endAttempted : Bool
deriving Repr

/-- `runMigrations` (migrate.ts lines 41-103), given the already-loaded set (the
`load` call's outcome is passed in so the pipeline after `client.connect()` can
be stated for any load result): connect, load, fetch the applied rows, validate,
filter, run the loop; any error thrown inside the try block is wrapped into the
single `Migration failed` error carrying it as cause, and the `finally` block
always attempts `client.end()`, swallowing its failure. -/
def runMigrationsWith (s : Session) (tableName : String)
    (loaded : Except MigrateError (List Migration)) : RunOutcome :=
  match s.connectResult with
  | some e =>
    { result := .error (.migrationFailed e), attempted := [], committed := [],
      endAttempted := true }
  | none =>
    match loaded with
    | .error e =>
      { result := .error (.migrationFailed e), attempted := [], committed := [],
        endAttempted := true }
    | .ok migrations =>
      let appliedMigrations :=
        fetchAppliedMigrationFromDB tableName s.catalog s.ledgerRows
      match validateMigrations migrations (jsIndex appliedMigrations) with
      | .error e =>
        { result := .error (.migrationFailed e), attempted := [], committed := [],
          endAttempted := true }
      | .ok () =>
        let filteredMigrations := filterMigrations migrations (jsIndex appliedMigrations)
        let (res, att, suc) := applyLoop s.runMig filteredMigrations
        { result := match res with
            | .ok rs => .ok rs
            | .error e => .error (.migrationFailed e),
          attempted := att, committed := suc, endAttempted := true }

/-- `runMigrations` composed with `load`, as called from `migrate`. -/
def runMigrations (s : Session) (hashFn : String → String) (directory : String)
    (files : List (String × String)) (tableName : String) : RunOutcome :=
  runMigrationsWith s tableName (load hashFn directory files tableName)

/-- `DEFAULT_MIGRATION_TABLE_NAME` (migrate.ts line 14). -/
def DEFAULT_MIGRATION_TABLE_NAME : String := "migrations"

/-- The caller-supplied configuration object, in its type-valid shape: the five
connection fields have passed the `typeof` checks of migrate.ts lines 21-30, and
`tableName` is either present or `undefined` (`none`). -/
structure MigrateDBConfig where
  database : String
  user : String
  password : String
  host : String
  port : Int
  tableName : Option String
deriving Repr, DecidableEq

/-- The config-defaulting step of `migrate` (migrate.ts lines 34-36): when
`tableName` is `undefined`, the caller's own config object is mutated to carry
the default table name; this function returns the state of that object after
the step. -/
def migrateConfigStep (dbConfig : MigrateDBConfig) : MigrateDBConfig :=
  if dbConfig.tableName = none then
    { dbConfig with tableName := some DEFAULT_MIGRATION_TABLE_NAME }
  else dbConfig

theorem findNotMatching_eq_none_iff (ms : List Migration) (b : Nat) :
    findNotMatching b ms = none
      ↔ ∀ i (h : i < ms.length), (ms.get ⟨i, h⟩).id = ((b + i : Nat) : Int) := by
  induction ms generalizing b with
  | nil => simp [findNotMatching]
  | cons m rest ih =>
    constructor
    · intro hnone i h
      rw [findNotMatching] at hnone
      by_cases hm : indexNotMatch m b = true
      · rw [if_pos hm] at hnone; exact absurd hnone (by simp)
      · rw [if_neg hm] at hnone
        have hmb : m.id = (b : Int) := by
          simpa [indexNotMatch] using hm
        match i with
        | 0 => simpa using hmb
        | i + 1 =>
          have h' : i < rest.length := Nat.lt_of_succ_lt_succ h
          have hr := (ih (b + 1)).mp hnone i h'
          have harith : (((b + 1) + i : Nat) : Int) = ((b + (i + 1) : Nat) : Int) := by
            push_cast; ring
          rw [harith] at hr
          simpa [List.get_cons_succ] using hr
    · intro hall
      rw [findNotMatching]
      have hmb : m.id = (b : Int) := by simpa using hall 0 (Nat.succ_pos _)
      rw [if_neg (by simp [indexNotMatch, hmb])]
      refine (ih (b + 1)).mpr (fun i h => ?_)
      have := hall (i + 1) (Nat.succ_lt_succ h)
      have harith : ((b + (i + 1) : Nat) : Int) = (((b + 1) + i : Nat) : Int) := by
        push_cast; ring
      rw [harith] at this
      simpa [List.get_cons_succ] using this

theorem findNotMatching_eq_some_first (ms : List Migration) (b i : Nat) (h : i < ms.length)
    (hfirst : ∀ j (hj : j < i), (ms.get ⟨j, Nat.lt_trans hj h⟩).id = ((b + j : Nat) : Int))
    (hbad : (ms.get ⟨i, h⟩).id ≠ ((b + i : Nat) : Int)) :
    findNotMatching b ms = some (ms.get ⟨i, h⟩) := by
  induction ms generalizing b i with
  | nil => exact absurd h (by simp)
  | cons m rest ih =>
    match i with
    | 0 =>
      rw [findNotMatching, if_pos (by simpa [indexNotMatch] using hbad)]
      rfl
    | i + 1 =>
      have hmb : m.id = (b : Int) := by simpa using hfirst 0 (Nat.succ_pos i)
      rw [findNotMatching, if_neg (by simp [indexNotMatch, hmb])]
      have h' : i < rest.length := Nat.lt_of_succ_lt_succ h
      have harith : ∀ j : Nat, ((b + (j + 1) : Nat) : Int) = (((b + 1) + j : Nat) : Int) := by
        intro j; push_cast; ring
      have hres := ih (b + 1) i h' (fun j hj => by
          have := hfirst (j + 1) (Nat.succ_lt_succ hj)
          rw [harith j] at this
          simpa [List.get_cons_succ] using this)
        (by
          have := hbad
          rw [show ((b + (i + 1) : Nat) : Int) = (((b + 1) + i : Nat) : Int) from harith i] at this
          simpa [List.get_cons_succ] using this)
      simpa [List.get_cons_succ] using hres

theorem runMigrationsWith_validate_error (s : Session) (tableName : String)
    (migrations : List Migration) (e : MigrateError)
    (hconn : s.connectResult = none)
    (hval : validateMigrations migrations
        (jsIndex (fetchAppliedMigrationFromDB tableName s.catalog s.ledgerRows))
        = .error e) :
    (runMigrationsWith s tableName (.ok migrations)).result = .error (.migrationFailed e)
  ∧ (runMigrationsWith s tableName (.ok migrations)).attempted = []
  ∧ (runMigrationsWith s tableName (.ok migrations)).committed = [] := by
  simp [runMigrationsWith, hconn, hval]

/-- C1: for every ordered list of migration units, if some unit at position i has
id different from i, the reconciler's validation raises the non-consecutive-id
error identifying the fileName of the first such unit, and no migrations are
executed; if unit.id equals i at every position, the ordering check raises
nothing. -/
theorem claim_C1 (migrations : List Migration) (applied : Int → Option Migration) :
    ((∀ i (h : i < migrations.length), (migrations.get ⟨i, h⟩).id = (i : Int)) →
      ∀ fn, validateMigrations migrations applied ≠ .error (.nonConsecutiveId fn))
  ∧ (∀ i (h : i < migrations.length),
      (migrations.get ⟨i, h⟩).id ≠ (i : Int) →
      (∀ j (hj : j < i), (migrations.get ⟨j, Nat.lt_trans hj h⟩).id = (j : Int)) →
      validateMigrations migrations applied
        = .error (.nonConsecutiveId (migrations.get ⟨i, h⟩).fileName))
  ∧ (∀ (s : Session) (tableName : String),
      s.connectResult = none →
      (∃ i, ∃ h : i < migrations.length, (migrations.get ⟨i, h⟩).id ≠ (i : Int)) →
      (runMigrationsWith s tableName (.ok migrations)).attempted = []
      ∧ (runMigrationsWith s tableName (.ok migrations)).committed = []) := by
  refine ⟨?_, ?_, ?_⟩
  · intro hall fn
    have hnone : findNotMatching 0 migrations = none :=
      (findNotMatching_eq_none_iff migrations 0).mpr (by simpa using hall)
    rw [validateMigrations, hnone]
    by_cases hlen : (migrations.filter (invalidHash applied)).length > 0
    · simp only [hlen, if_pos]
      simp
    · simp only [hlen, if_neg]
      simp
  · intro i h hbad hfirst
    have hsome : findNotMatching 0 migrations = some (migrations.get ⟨i, h⟩) :=
      findNotMatching_eq_some_first migrations 0 i h (by simpa using hfirst) (by simpa using hbad)
    rw [validateMigrations, hsome]
  · intro s tableName hconn hex
    obtain ⟨i, h, hbad⟩ := hex
    have hne : findNotMatching 0 migrations ≠ none := by
      intro hnone
      exact hbad (by simpa using (findNotMatching_eq_none_iff migrations 0).mp hnone i h)
    obtain ⟨x, hx⟩ := Option.ne_none_iff_exists'.mp hne
    have hval : validateMigrations migrations
        (jsIndex (fetchAppliedMigrationFromDB tableName s.catalog s.ledgerRows))
        = .error (.nonConsecutiveId x.fileName) := by
      rw [validateMigrations, hx]
    obtain ⟨-, h2, h3⟩ :=
      runMigrationsWith_validate_error s tableName migrations _ hconn hval
    exact ⟨h2, h3⟩

/-- Witness for C1 at a concrete input: the list with ids 0, 5 fails validation
at the second unit, naming its file, and a run over it attempts nothing. -/
theorem claim_C1_witness :
    validateMigrations
        [⟨0, "0_a.sql", "a", "h0", "b0"⟩, ⟨5, "1_b.sql", "b", "h1", "b1"⟩]
        (fun _ => none)
      = .error (.nonConsecutiveId "1_b.sql")
  ∧ (runMigrationsWith
        { connectResult := none, catalog := [], ledgerRows := [],
          runMig := fun m => .ok m, endResult := none } "migrations"
        (.ok [⟨0, "0_a.sql", "a", "h0", "b0"⟩, ⟨5, "1_b.sql", "b", "h1", "b1"⟩])).attempted
      = [] := by
  constructor
  · exact (claim_C1
      [⟨0, "0_a.sql", "a", "h0", "b0"⟩, ⟨5, "1_b.sql", "b", "h1", "b1"⟩]
      (fun _ => none)).2.1 1 (by decide) (by decide)
      (fun j hj => by
        have hj0 : j = 0 := by omega
        subst hj0; rfl)
  · exact ((claim_C1
      [⟨0, "0_a.sql", "a", "h0", "b0"⟩, ⟨5, "1_b.sql", "b", "h1", "b1"⟩]
      (fun _ => none)).2.2
      { connectResult := none, catalog := [], ledgerRows := [],
        runMig := fun m => .ok m, endResult := none } "migrations" rfl
      ⟨1, by decide, by decide⟩).1

/-- C2: for every ordered list of units and applied record, a unit whose id is
recorded with a different hash makes validation raise a single hash-mismatch
error listing the fileNames of all offending units, collected over the full set;
when every recorded unit's hash is identical, no hash error is raised; and a
hash-mismatch failure means no migrations are executed. -/
theorem claim_C2 (migrations : List Migration) (applied : Int → Option Migration) :
    ((∀ i (h : i < migrations.length), (migrations.get ⟨i, h⟩).id = (i : Int)) →
      (∃ m ∈ migrations, invalidHash applied m = true) →
      validateMigrations migrations applied
        = .error (.hashMismatch
            ((migrations.filter (invalidHash applied)).map (·.fileName))))
  ∧ ((∀ m ∈ migrations, ∀ a, applied m.id = some a → a.hash = m.hash) →
      ∀ fns, validateMigrations migrations applied ≠ .error (.hashMismatch fns))
  ∧ (∀ (s : Session) (tableName : String) (fns : List String),
      s.connectResult = none →
      validateMigrations migrations
          (jsIndex (fetchAppliedMigrationFromDB tableName s.catalog s.ledgerRows))
        = .error (.hashMismatch fns) →
      (runMigrationsWith s tableName (.ok migrations)).attempted = []
      ∧ (runMigrationsWith s tableName (.ok migrations)).committed = []) := by
  refine ⟨?_, ?_, ?_⟩
  · intro hall hex
    have hnone : findNotMatching 0 migrations = none :=
      (findNotMatching_eq_none_iff migrations 0).mpr (by simpa using hall)
    obtain ⟨m, hm, hinv⟩ := hex
    have hmem : m ∈ migrations.filter (invalidHash applied) :=
      List.mem_filter.mpr ⟨hm, hinv⟩
    have hpos : (migrations.filter (invalidHash applied)).length > 0 :=
      List.length_pos.mpr (List.ne_nil_of_mem hmem)
    rw [validateMigrations, hnone]
    simp only [hpos, if_pos]
  · intro hok fns
    cases hfind : findNotMatching 0 migrations with
    | some x =>
      rw [validateMigrations, hfind]
      simp
    | none =>
      have hfil : migrations.filter (invalidHash applied) = [] := by
        refine List.filter_eq_nil_iff.mpr (fun m hm => ?_)
        rw [invalidHash]
        cases happ : applied m.id with
        | none => simp
        | some a => simp [hok m hm a happ]
      rw [validateMigrations, hfind]
      simp [hfil]
  · intro s tableName fns hconn hval
    obtain ⟨-, h2, h3⟩ :=
      runMigrationsWith_validate_error s tableName migrations _ hconn hval
    exact ⟨h2, h3⟩

/-- Witness for C2 at a concrete input: a two-unit set whose first unit is
recorded with a different hash fails with a hash-mismatch error naming exactly
that unit's file. -/
theorem claim_C2_witness :
    validateMigrations
        [⟨0, "0_a.sql", "a", "h0", "b0"⟩, ⟨1, "1_b.sql", "b", "h1", "b1"⟩]
        (fun i => if i = 0 then some ⟨0, "0_a.sql", "a", "CHANGED", "b0"⟩ else none)
      = .error (.hashMismatch ["0_a.sql"]) :=
  (claim_C2
    [⟨0, "0_a.sql", "a", "h0", "b0"⟩, ⟨1, "1_b.sql", "b", "h1", "b1"⟩]
    (fun i => if i = 0 then some ⟨0, "0_a.sql", "a", "CHANGED", "b0"⟩ else none)).1
    (by
      intro i h
      match i, h with
      | 0, _ => rfl
      | 1, _ => rfl)
    ⟨⟨0, "0_a.sql", "a", "h0", "b0"⟩, by decide, by decide⟩

/-- C3: the computed pending delta is exactly the units whose id is absent from
the applied record — a sub-list of the validated set containing a unit iff its
id is unrecorded, in ascending id order — and when every unit's id is already
recorded the delta is empty, so a second run over the same set and the populated
ledger applies zero migrations. -/
theorem claim_C3 (migrations : List Migration) (applied : Int → Option Migration) :
    (filterMigrations migrations applied).Sublist migrations
  ∧ (∀ m ∈ migrations, (m ∈ filterMigrations migrations applied ↔ applied m.id = none))
  ∧ ((∀ i (h : i < migrations.length), (migrations.get ⟨i, h⟩).id = (i : Int)) →
      (filterMigrations migrations applied).Pairwise (fun a b => a.id < b.id))
  ∧ ((∀ m ∈ migrations, (applied m.id).isSome) → filterMigrations migrations applied = [])
  ∧ (∀ (s : Session) (tableName : String),
      s.connectResult = none →
      validateMigrations migrations
          (jsIndex (fetchAppliedMigrationFromDB tableName s.catalog s.ledgerRows))
        = .ok () →
      (∀ m ∈ migrations,
        (jsIndex (fetchAppliedMigrationFromDB tableName s.catalog s.ledgerRows)
          m.id).isSome) →
      (runMigrationsWith s tableName (.ok migrations)).result = .ok []
      ∧ (runMigrationsWith s tableName (.ok migrations)).attempted = []) := by
  have hsub : ∀ ap : Int → Option Migration,
      (filterMigrations migrations ap).Sublist migrations :=
    fun ap => List.filter_sublist migrations
  have hempty : ∀ ap : Int → Option Migration,
      (∀ m ∈ migrations, (ap m.id).isSome) → filterMigrations migrations ap = [] := by
    intro ap hcov
    refine List.filter_eq_nil_iff.mpr (fun m hm => ?_)
    have := hcov m hm
    simp only [Option.isSome_iff_exists] at this
    obtain ⟨a, ha⟩ := this
    simp [ha]
  refine ⟨hsub applied, ?_, ?_, hempty applied, ?_⟩
  · intro m hm
    rw [filterMigrations, List.mem_filter]
    simp [hm, Option.isNone_iff_eq_none]
  · intro hall
    have hpw : migrations.Pairwise (fun a b => a.id < b.id) := by
      rw [List.pairwise_iff_get]
      intro i j hij
      rw [hall i i.isLt, hall j j.isLt]
      exact_mod_cast hij
    exact hpw.sublist (hsub applied)
  · intro s tableName hconn hval hcov
    have hfil := hempty _ hcov
    constructor <;> simp [runMigrationsWith, hconn, hval, hfil, applyLoop]

/-- Witness for C3 at a concrete input: with unit 0 recorded and unit 1 not, the
delta is exactly unit 1; with both recorded the delta is empty and a full run
returns the empty list having attempted nothing. -/
theorem claim_C3_witness :
    (⟨1, "1_b.sql", "b", "h1", "b1"⟩ ∈
        filterMigrations
          [⟨0, "0_a.sql", "a", "h0", "b0"⟩, ⟨1, "1_b.sql", "b", "h1", "b1"⟩]
          (fun i => if i = 0 then some ⟨0, "0_a.sql", "a", "h0", "b0"⟩ else none)
      ↔ (if (1 : Int) = 0 then some (⟨0, "0_a.sql", "a", "h0", "b0"⟩ : Migration)
          else none) = none)
  ∧ (runMigrationsWith
        { connectResult := none,
          catalog := [⟨"migrations", "public", 'r'⟩],
          ledgerRows := [⟨0, "0_a.sql", "a", "h0", "b0"⟩, ⟨1, "1_b.sql", "b", "h1", "b1"⟩],
          runMig := fun m => .ok m, endResult := none } "migrations"
        (.ok [⟨0, "0_a.sql", "a", "h0", "b0"⟩, ⟨1, "1_b.sql", "b", "h1", "b1"⟩])).result
      = .ok [] := by
  constructor
  · exact (claim_C3
      [⟨0, "0_a.sql", "a", "h0", "b0"⟩, ⟨1, "1_b.sql", "b", "h1", "b1"⟩]
      (fun i => if i = 0 then some ⟨0, "0_a.sql", "a", "h0", "b0"⟩ else none)).2.1
      ⟨1, "1_b.sql", "b", "h1", "b1"⟩ (by decide)
  · exact ((claim_C3
      [⟨0, "0_a.sql", "a", "h0", "b0"⟩, ⟨1, "1_b.sql", "b", "h1", "b1"⟩]
      (jsIndex (fetchAppliedMigrationFromDB "migrations"
        [⟨"migrations", "public", 'r'⟩]
        [⟨0, "0_a.sql", "a", "h0", "b0"⟩, ⟨1, "1_b.sql", "b", "h1", "b1"⟩]))).2.2.2.2
      { connectResult := none,
        catalog := [⟨"migrations", "public", 'r'⟩],
        ledgerRows := [⟨0, "0_a.sql", "a", "h0", "b0"⟩, ⟨1, "1_b.sql", "b", "h1", "b1"⟩],
        runMig := fun m => .ok m, endResult := none } "migrations" rfl (by rfl)
      (by decide)).1

theorem applyLoop_append_error (runMig : Migration → Except MigrateError Migration)
    (pre post : List Migration) (bad : Migration) (e : MigrateError)
    (hpre : ∀ m ∈ pre, ∃ r, runMig m = .ok r) (hbad : runMig bad = .error e) :
    applyLoop runMig (pre ++ bad :: post) = (.error e, pre ++ [bad], pre) := by
  induction pre with
  | nil => simp [applyLoop, hbad]
  | cons m rest ih =>
    obtain ⟨r, hr⟩ := hpre m (List.mem_cons_self m rest)
    have ihres := ih (fun m' hm' => hpre m' (List.mem_cons_of_mem _ hm'))
    simp [applyLoop, hr, ihres]

theorem applyLoop_fst_ok (runMig : Migration → Except MigrateError Migration)
    (l : List Migration) : ∀ rs, (applyLoop runMig l).1 = .ok rs →
    List.Forall₂ (fun m r => runMig m = .ok r) l rs := by
  induction l with
  | nil =>
    intro rs h
    simp [applyLoop] at h
    subst h
    exact List.Forall₂.nil
  | cons m rest ih =>
    intro rs h
    cases hm : runMig m with
    | error e => simp [applyLoop, hm] at h
    | ok r =>
      rcases happ : applyLoop runMig rest with ⟨res, att, suc⟩
      cases res with
      | error e => simp [applyLoop, hm, happ] at h
      | ok rs' =>
        simp [applyLoop, hm, happ] at h
        have hrest := ih rs' (by rw [happ])
        rw [← h]
        exact List.Forall₂.cons hm hrest

/-- C4: once connected and validated, if applying some pending unit fails, the
units before it are attempted and committed, no later pending unit is attempted,
and the caller receives the single wrapped error carrying the original failure
as cause, with the successfully-applied results discarded; when the run returns
a list, it is the full list of results of every pending unit. -/
theorem claim_C4 (s : Session) (tableName : String) (migrations : List Migration)
    (hconn : s.connectResult = none)
    (hval : validateMigrations migrations
        (jsIndex (fetchAppliedMigrationFromDB tableName s.catalog s.ledgerRows))
      = .ok ()) :
    (∀ (pre post : List Migration) (bad : Migration) (e : MigrateError),
      filterMigrations migrations
          (jsIndex (fetchAppliedMigrationFromDB tableName s.catalog s.ledgerRows))
        = pre ++ bad :: post →
      (∀ m ∈ pre, ∃ r, s.runMig m = .ok r) →
      s.runMig bad = .error e →
      (runMigrationsWith s tableName (.ok migrations)).result
          = .error (.migrationFailed e)
      ∧ (runMigrationsWith s tableName (.ok migrations)).attempted = pre ++ [bad]
      ∧ (runMigrationsWith s tableName (.ok migrations)).committed = pre)
  ∧ (∀ rs, (runMigrationsWith s tableName (.ok migrations)).result = .ok rs →
      List.Forall₂ (fun m r => s.runMig m = .ok r)
        (filterMigrations migrations
          (jsIndex (fetchAppliedMigrationFromDB tableName s.catalog s.ledgerRows)))
        rs) := by
  constructor
  · intro pre post bad e hsplit hpre hbad
    have happly := applyLoop_append_error s.runMig pre post bad e hpre hbad
    refine ⟨?_, ?_, ?_⟩ <;>
      simp [runMigrationsWith, hconn, hval, hsplit, happly]
  · intro rs hres
    rcases happ : applyLoop s.runMig (filterMigrations migrations
        (jsIndex (fetchAppliedMigrationFromDB tableName s.catalog s.ledgerRows)))
      with ⟨res, att, suc⟩
    cases res with
    | error e => simp [runMigrationsWith, hconn, hval, happ] at hres
    | ok rs' =>
      simp [runMigrationsWith, hconn, hval, happ] at hres
      exact applyLoop_fst_ok s.runMig _ rs (by rw [happ, hres])

/-- Witness for C4 at a concrete input: three pending units where the second
fails — the first is attempted and committed, the third never attempted, and the
caller sees only the wrapped error. -/
theorem claim_C4_witness :
    (runMigrationsWith
        { connectResult := none, catalog := [], ledgerRows := [],
          runMig := fun m => if m.id = 0 then .ok m else .error (.applyError "boom"),
          endResult := none } "migrations"
        (.ok [⟨0, "0_a.sql", "a", "h0", "b0"⟩, ⟨1, "1_b.sql", "b", "h1", "b1"⟩,
              ⟨2, "2_c.sql", "c", "h2", "b2"⟩])).result
      = .error (.migrationFailed (.applyError "boom"))
  ∧ (runMigrationsWith
        { connectResult := none, catalog := [], ledgerRows := [],
          runMig := fun m => if m.id = 0 then .ok m else .error (.applyError "boom"),
          endResult := none } "migrations"
        (.ok [⟨0, "0_a.sql", "a", "h0", "b0"⟩, ⟨1, "1_b.sql", "b", "h1", "b1"⟩,
              ⟨2, "2_c.sql", "c", "h2", "b2"⟩])).attempted
      = [⟨0, "0_a.sql", "a", "h0", "b0"⟩, ⟨1, "1_b.sql", "b", "h1", "b1"⟩]
  ∧ (runMigrationsWith
        { connectResult := none, catalog := [], ledgerRows := [],
          runMig := fun m => if m.id = 0 then .ok m else .error (.applyError "boom"),
          endResult := none } "migrations"
        (.ok [⟨0, "0_a.sql", "a", "h0", "b0"⟩, ⟨1, "1_b.sql", "b", "h1", "b1"⟩,
              ⟨2, "2_c.sql", "c", "h2", "b2"⟩])).committed
      = [⟨0, "0_a.sql", "a", "h0", "b0"⟩] :=
  (claim_C4
    { connectResult := none, catalog := [], ledgerRows := [],
      runMig := fun m => if m.id = 0 then .ok m else .error (.applyError "boom"),
      endResult := none } "migrations"
    [⟨0, "0_a.sql", "a", "h0", "b0"⟩, ⟨1, "1_b.sql", "b", "h1", "b1"⟩,
     ⟨2, "2_c.sql", "c", "h2", "b2"⟩] rfl rfl).1
    [⟨0, "0_a.sql", "a", "h0", "b0"⟩] [⟨2, "2_c.sql", "c", "h2", "b2"⟩]
    ⟨1, "1_b.sql", "b", "h1", "b1"⟩ (.applyError "boom") rfl
    (by
      intro m hm
      simp at hm
      subst hm
      exact ⟨_, rfl⟩)
    rfl

/-- C5: the set loader appends the bootstrap unit — id 0, fixed name, and a
body creating the ledger table, parameterized only by the configured table
name — to the loaded units and returns the whole set (a permutation of loaded
units plus bootstrap) sorted ascending by id; an empty directory yields exactly
the bootstrap unit, and an empty source plus an empty ledger yields exactly one
applied migration. -/
theorem claim_C5 (hashFn : String → String) (directory : String)
    (files : List (String × String)) (tableName : String) :
    (bootstrapMigration hashFn tableName).id = 0
  ∧ (bootstrapMigration hashFn tableName).name = bootstrapFileName
  ∧ (bootstrapMigration hashFn tableName).body = createMigrationTableSql tableName
  ∧ (∀ units,
      List.mapM (fun f => loadMigrationFile hashFn f.1 f.2)
          (files.filter (fun f => isValidFile (resolvePath directory f.1)))
        = .ok units →
      load hashFn directory files tableName
        = .ok (sortById (units ++ [bootstrapMigration hashFn tableName]))
      ∧ (sortById (units ++ [bootstrapMigration hashFn tableName])).Perm
          (units ++ [bootstrapMigration hashFn tableName])
      ∧ List.Sorted (fun a b => a.id ≤ b.id)
          (sortById (units ++ [bootstrapMigration hashFn tableName])))
  ∧ load hashFn directory [] tableName = .ok [bootstrapMigration hashFn tableName]
  ∧ (∀ s : Session, s.connectResult = none →
      doesTableExist s.catalog tableName = false →
      s.runMig (bootstrapMigration hashFn tableName)
        = .ok (bootstrapMigration hashFn tableName) →
      (runMigrations s hashFn directory [] tableName).result
        = .ok [bootstrapMigration hashFn tableName]) := by
  refine ⟨rfl, rfl, rfl, ?_, ?_, ?_⟩
  · intro units hmap
    refine ⟨?_, List.perm_insertionSort _ _, List.sorted_insertionSort _ _⟩
    have hmap' : List.mapM.loop (fun f => loadMigrationFile hashFn f.1 f.2)
        (files.filter (fun f => isValidFile (resolvePath directory f.1))) []
        = Except.ok units := hmap
    simp [load, hmap']
  · rfl
  · intro s hconn htable hrun
    have hload : load hashFn directory [] tableName
        = .ok [bootstrapMigration hashFn tableName] := rfl
    have hfetch : fetchAppliedMigrationFromDB tableName s.catalog s.ledgerRows = [] := by
      simp [fetchAppliedMigrationFromDB, htable]
    have hval : validateMigrations [bootstrapMigration hashFn tableName] (jsIndex [])
        = .ok () := rfl
    simp [runMigrations, hload, runMigrationsWith, hconn, hfetch, hval,
      filterMigrations, jsIndex, applyLoop, hrun]

/-- Witness for C5 at a concrete input: loading one parsed unit appends the
bootstrap unit and sorts, and an empty directory against an empty ledger applies
exactly the bootstrap migration. -/
theorem claim_C5_witness :
    load (fun s => s) "migrations" [("1_a.sql", "B")] "migrations"
      = .ok (sortById ([⟨1, "1_a.sql", "a", "aB", "B"⟩]
          ++ [bootstrapMigration (fun s => s) "migrations"]))
  ∧ (runMigrations
        { connectResult := none, catalog := [], ledgerRows := [],
          runMig := fun m => .ok m, endResult := none }
        (fun s => s) "migrations" [] "migrations").result
      = .ok [bootstrapMigration (fun s => s) "migrations"] :=
  ⟨((claim_C5 (fun s => s) "migrations" [("1_a.sql", "B")] "migrations").2.2.2.1
      [⟨1, "1_a.sql", "a", "aB", "B"⟩] (by rfl)).1,
   (claim_C5 (fun s => s) "migrations" [] "migrations").2.2.2.2.2
      { connectResult := none, catalog := [], ledgerRows := [],
        runMig := fun m => .ok m, endResult := none } rfl rfl rfl⟩

theorem isValidFile_of_specRecognizedExtension (name : String)
    (h : specRecognizedExtension name = true) : isValidFile name = true := by
  rw [specRecognizedExtension] at h
  rw [isValidFile]
  split at h
  next rest heq =>
    rw [heq]
    rfl
  next rest heq =>
    rw [heq]
    rfl
  next => exact absurd h (by simp)

/-- C6: the candidate filter accepts every file name with a recognized extension,
independently of which file names were tested before it; and a directory holding
exactly the two recognized files with ids 1 and 2 run against an empty ledger
applies three migrations, ids 0, 1, 2 in that order, while a re-run against the
populated ledger returns the empty result. -/
theorem claim_C6 (hashFn : String → String) (b1 b2 : String) :
    (∀ (names : List String) (name : String),
        name ∈ names → specRecognizedExtension name = true →
        name ∈ names.filter isValidFile)
  ∧ (runMigrations
        { connectResult := none, catalog := [], ledgerRows := [],
          runMig := fun m => .ok m, endResult := none }
        hashFn "migrations"
        [("1_create_users.sql", b1), ("2_add_email_index.sql", b2)] "migrations").result
      = .ok [bootstrapMigration hashFn "migrations",
          ⟨1, "1_create_users.sql", "create_users", hashFn ("create_users" ++ b1), b1⟩,
          ⟨2, "2_add_email_index.sql", "add_email_index",
            hashFn ("add_email_index" ++ b2), b2⟩]
  ∧ (runMigrations
        { connectResult := none,
          catalog := [⟨"migrations", "public", 'r'⟩],
          ledgerRows := [bootstrapMigration hashFn "migrations",
            ⟨1, "1_create_users.sql", "create_users", hashFn ("create_users" ++ b1), b1⟩,
            ⟨2, "2_add_email_index.sql", "add_email_index",
              hashFn ("add_email_index" ++ b2), b2⟩],
          runMig := fun m => .ok m, endResult := none }
        hashFn "migrations"
        [("1_create_users.sql", b1), ("2_add_email_index.sql", b2)] "migrations").result
      = .ok [] := by
  refine ⟨?_, rfl, ?_⟩
  · intro names name hmem hspec
    exact List.mem_filter.mpr ⟨hmem, isValidFile_of_specRecognizedExtension name hspec⟩
  · have hload : load hashFn "migrations"
        [("1_create_users.sql", b1), ("2_add_email_index.sql", b2)] "migrations"
        = .ok [bootstrapMigration hashFn "migrations",
            ⟨1, "1_create_users.sql", "create_users", hashFn ("create_users" ++ b1), b1⟩,
            ⟨2, "2_add_email_index.sql", "add_email_index",
              hashFn ("add_email_index" ++ b2), b2⟩] := rfl
    have hfind : findNotMatching 0
        [bootstrapMigration hashFn "migrations",
         ⟨1, "1_create_users.sql", "create_users", hashFn ("create_users" ++ b1), b1⟩,
         ⟨2, "2_add_email_index.sql", "add_email_index",
           hashFn ("add_email_index" ++ b2), b2⟩] = none := rfl
    have hinv : List.filter (invalidHash (jsIndex
        [bootstrapMigration hashFn "migrations",
         ⟨1, "1_create_users.sql", "create_users", hashFn ("create_users" ++ b1), b1⟩,
         ⟨2, "2_add_email_index.sql", "add_email_index",
           hashFn ("add_email_index" ++ b2), b2⟩]))
        [bootstrapMigration hashFn "migrations",
         ⟨1, "1_create_users.sql", "create_users", hashFn ("create_users" ++ b1), b1⟩,
         ⟨2, "2_add_email_index.sql", "add_email_index",
           hashFn ("add_email_index" ++ b2), b2⟩] = [] := by
      simp [invalidHash, jsIndex, List.filter, bootstrapMigration, loadRaw]
    have hval : validateMigrations
        [bootstrapMigration hashFn "migrations",
         ⟨1, "1_create_users.sql", "create_users", hashFn ("create_users" ++ b1), b1⟩,
         ⟨2, "2_add_email_index.sql", "add_email_index",
           hashFn ("add_email_index" ++ b2), b2⟩]
        (jsIndex
        [bootstrapMigration hashFn "migrations",
         ⟨1, "1_create_users.sql", "create_users", hashFn ("create_users" ++ b1), b1⟩,
         ⟨2, "2_add_email_index.sql", "add_email_index",
           hashFn ("add_email_index" ++ b2), b2⟩]) = .ok () := by
      rw [validateMigrations, hfind, hinv]
      rfl
    have hfetch : fetchAppliedMigrationFromDB "migrations"
        [⟨"migrations", "public", 'r'⟩]
        [bootstrapMigration hashFn "migrations",
         ⟨1, "1_create_users.sql", "create_users", hashFn ("create_users" ++ b1), b1⟩,
         ⟨2, "2_add_email_index.sql", "add_email_index",
           hashFn ("add_email_index" ++ b2), b2⟩]
        = [bootstrapMigration hashFn "migrations",
           ⟨1, "1_create_users.sql", "create_users", hashFn ("create_users" ++ b1), b1⟩,
           ⟨2, "2_add_email_index.sql", "add_email_index",
             hashFn ("add_email_index" ++ b2), b2⟩] := rfl
    have hfil : filterMigrations
        [bootstrapMigration hashFn "migrations",
         ⟨1, "1_create_users.sql", "create_users", hashFn ("create_users" ++ b1), b1⟩,
         ⟨2, "2_add_email_index.sql", "add_email_index",
           hashFn ("add_email_index" ++ b2), b2⟩]
        (jsIndex
        [bootstrapMigration hashFn "migrations",
         ⟨1, "1_create_users.sql", "create_users", hashFn ("create_users" ++ b1), b1⟩,
         ⟨2, "2_add_email_index.sql", "add_email_index",
           hashFn ("add_email_index" ++ b2), b2⟩]) = [] := rfl
    rw [runMigrations, hload]
    simp [runMigrationsWith, hfetch, hval, hfil, applyLoop]

/-- Witness for C6 at a concrete input: a name with a recognized extension is
kept by the candidate filter even when listed after an unrecognized one. -/
theorem claim_C6_witness :
    "foo.sql" ∈ ["README.md", "foo.sql"].filter isValidFile :=
  (claim_C6 (fun s => s) "B1" "B2").1 ["README.md", "foo.sql"] "foo.sql"
    (by decide) (by rfl)

/-- C7 counterexample: the ledger reader returns a row array, not a mapping
keyed by id — with recorded ids 0 and 2, looking up id 1 in the returned value
yields the record whose id is 2, neither nothing nor a record with id 1. -/
theorem claim_C7_counterexample :
    jsIndex (fetchAppliedMigrationFromDB "migrations"
        [⟨"migrations", "public", 'r'⟩]
        [⟨0, "0_a.sql", "a", "h0", "b0"⟩, ⟨2, "2_c.sql", "c", "h2", "b2"⟩]) 1
      = some ⟨2, "2_c.sql", "c", "h2", "b2"⟩
  ∧ (2 : Int) ≠ 1 := by decide

/-- C7 (amended): the ledger reader returns the empty array when the ledger
table is absent, and otherwise all rows sorted ascending by id as an array whose
lookup is positional; only when the recorded ids are exactly the positions
0..N-1 does looking up any id yield the record with that id or nothing. -/
theorem claim_C7 (tableName : String) (catalog : List Relation)
    (rows : List Migration) :
    (doesTableExist catalog tableName = false →
      fetchAppliedMigrationFromDB tableName catalog rows = [])
  ∧ (doesTableExist catalog tableName = true →
      fetchAppliedMigrationFromDB tableName catalog rows = sortById rows
      ∧ (fetchAppliedMigrationFromDB tableName catalog rows).Perm rows
      ∧ List.Sorted (fun a b => a.id ≤ b.id)
          (fetchAppliedMigrationFromDB tableName catalog rows))
  ∧ ((∀ i (h : i < (fetchAppliedMigrationFromDB tableName catalog rows).length),
        ((fetchAppliedMigrationFromDB tableName catalog rows).get ⟨i, h⟩).id
          = (i : Int)) →
      ∀ id : Int,
        jsIndex (fetchAppliedMigrationFromDB tableName catalog rows) id = none
        ∨ ∀ r, jsIndex (fetchAppliedMigrationFromDB tableName catalog rows) id
              = some r → r.id = id) := by
  refine ⟨?_, ?_, ?_⟩
  · intro h
    simp [fetchAppliedMigrationFromDB, h]
  · intro h
    refine ⟨by simp [fetchAppliedMigrationFromDB, h], ?_, ?_⟩
    · simp only [fetchAppliedMigrationFromDB, h, if_pos]
      exact List.perm_insertionSort _ _
    · simp only [fetchAppliedMigrationFromDB, h, if_pos]
      exact List.sorted_insertionSort _ _
  · intro hdense id
    cases hj : jsIndex (fetchAppliedMigrationFromDB tableName catalog rows) id with
    | none => exact Or.inl rfl
    | some r =>
      refine Or.inr (fun r' hr' => ?_)
      obtain rfl : r = r' := by injection hr'
      rw [jsIndex] at hj
      by_cases hneg : id < 0
      · rw [if_pos hneg] at hj
        exact absurd hj (by simp)
      · rw [if_neg hneg] at hj
        obtain ⟨hlt, hget⟩ := List.get?_eq_some.mp hj
        have := hdense id.toNat hlt
        rw [hget] at this
        rw [this]
        omega

/-- Witness for C7 at a concrete input: absent table yields the empty array;
with the table present the rows come back sorted by id, and with dense ids the
positional lookup returns the record carrying the looked-up id. -/
theorem claim_C7_witness :
    fetchAppliedMigrationFromDB "migrations" [] [⟨0, "0_a.sql", "a", "h0", "b0"⟩] = []
  ∧ fetchAppliedMigrationFromDB "migrations" [⟨"migrations", "public", 'r'⟩]
        [⟨1, "1_b.sql", "b", "h1", "b1"⟩, ⟨0, "0_a.sql", "a", "h0", "b0"⟩]
      = sortById [⟨1, "1_b.sql", "b", "h1", "b1"⟩, ⟨0, "0_a.sql", "a", "h0", "b0"⟩]
  ∧ (jsIndex (fetchAppliedMigrationFromDB "migrations" [⟨"migrations", "public", 'r'⟩]
        [⟨1, "1_b.sql", "b", "h1", "b1"⟩, ⟨0, "0_a.sql", "a", "h0", "b0"⟩]) 1 = none
      ∨ ∀ r, jsIndex (fetchAppliedMigrationFromDB "migrations"
            [⟨"migrations", "public", 'r'⟩]
            [⟨1, "1_b.sql", "b", "h1", "b1"⟩, ⟨0, "0_a.sql", "a", "h0", "b0"⟩]) 1
          = some r → r.id = 1) :=
  ⟨(claim_C7 "migrations" [] [⟨0, "0_a.sql", "a", "h0", "b0"⟩]).1 rfl,
   ((claim_C7 "migrations" [⟨"migrations", "public", 'r'⟩]
      [⟨1, "1_b.sql", "b", "h1", "b1"⟩, ⟨0, "0_a.sql", "a", "h0", "b0"⟩]).2.1 rfl).1,
   (claim_C7 "migrations" [⟨"migrations", "public", 'r'⟩]
      [⟨1, "1_b.sql", "b", "h1", "b1"⟩, ⟨0, "0_a.sql", "a", "h0", "b0"⟩]).2.2
      (by
        intro i h
        match i, h with
        | 0, _ => rfl
        | 1, _ => rfl) 1⟩

/-- C8 counterexample: the existence query filters only on relation name and
kind, not on schema — a same-named ordinary table that lives in schema `other`
makes the check succeed even though no relation exists in the session's schema
`public`. -/
theorem claim_C8_counterexample :
    doesTableExist [⟨"migrations", "other", 'r'⟩] "migrations" = true
  ∧ ¬ ∃ r ∈ ([⟨"migrations", "other", 'r'⟩] : List Relation),
        r.relname = "migrations" ∧ r.relkind = 'r' ∧ r.relnamespace = "public" := by
  constructor
  · rfl
  · decide

/-- C8 (amended): the ledger table's existence is determined by a catalog lookup
keyed by the table name and the ordinary-table relation kind across all schemas:
a relation of a different kind never counts, but a matching name in any schema
does. -/
theorem claim_C8 (catalog : List Relation) (tableName : String) :
    doesTableExist catalog tableName = true
      ↔ ∃ r ∈ catalog, r.relname = tableName ∧ r.relkind = 'r' := by
  simp [doesTableExist, List.any_eq_true]

/-- C9 counterexample: when opening the session fails, the `finally` block still
attempts `client.end()` — the Closing step is not skipped. -/
theorem claim_C9_counterexample :
    (runMigrationsWith
        { connectResult := some (.connectionError "ECONNREFUSED"), catalog := [],
          ledgerRows := [], runMig := fun m => .ok m,
          endResult := some "close failed" }
        "migrations" (.ok [])).endAttempted = true := rfl

/-- C9 (amended): when opening the database session fails, the run fails with
the single wrapped error carrying the connection failure as cause and no
migration is attempted, but the Closing step is still attempted (its own
failure being logged and swallowed). -/
theorem claim_C9 (s : Session) (tableName : String)
    (loaded : Except MigrateError (List Migration)) (e : MigrateError)
    (h : s.connectResult = some e) :
    (runMigrationsWith s tableName loaded).result = .error (.migrationFailed e)
  ∧ (runMigrationsWith s tableName loaded).attempted = []
  ∧ (runMigrationsWith s tableName loaded).endAttempted = true := by
  refine ⟨?_, ?_, ?_⟩ <;> simp [runMigrationsWith, h]

/-- Witness for C9 at a concrete input: a refused connection produces the
wrapped connection error, zero attempted migrations, and an attempted close. -/
theorem claim_C9_witness :
    (runMigrationsWith
        { connectResult := some (.connectionError "refused"), catalog := [],
          ledgerRows := [], runMig := fun m => .ok m, endResult := none }
        "migrations" (.ok [])).result
      = .error (.migrationFailed (.connectionError "refused"))
  ∧ (runMigrationsWith
        { connectResult := some (.connectionError "refused"), catalog := [],
          ledgerRows := [], runMig := fun m => .ok m, endResult := none }
        "migrations" (.ok [])).attempted = []
  ∧ (runMigrationsWith
        { connectResult := some (.connectionError "refused"), catalog := [],
          ledgerRows := [], runMig := fun m => .ok m, endResult := none }
        "migrations" (.ok [])).endAttempted = true :=
  claim_C9
    { connectResult := some (.connectionError "refused"), catalog := [],
      ledgerRows := [], runMig := fun m => .ok m, endResult := none }
    "migrations" (.ok []) (.connectionError "refused") rfl

/-- C10: for every type-valid configuration whose tableName is undefined, the
entry step writes the default table name `migrations` into the caller's own
config object and leaves every other field unchanged; when tableName is defined
the object is not modified. -/
theorem claim_C10 (dbConfig : MigrateDBConfig) :
    (dbConfig.tableName = none →
      (migrateConfigStep dbConfig).tableName = some "migrations"
      ∧ (migrateConfigStep dbConfig).database = dbConfig.database
      ∧ (migrateConfigStep dbConfig).user = dbConfig.user
      ∧ (migrateConfigStep dbConfig).password = dbConfig.password
      ∧ (migrateConfigStep dbConfig).host = dbConfig.host
      ∧ (migrateConfigStep dbConfig).port = dbConfig.port)
  ∧ (dbConfig.tableName ≠ none → migrateConfigStep dbConfig = dbConfig) := by
  constructor
  · intro h
    simp [migrateConfigStep, h, DEFAULT_MIGRATION_TABLE_NAME]
  · intro h
    simp [migrateConfigStep, h]

/-- Witness for C10 at a concrete input: an undefined tableName is defaulted to
`migrations`, and a defined one leaves the config untouched. -/
theorem claim_C10_witness :
    (migrateConfigStep ⟨"db", "user", "pw", "localhost", 5432, none⟩).tableName
      = some "migrations"
  ∧ migrateConfigStep ⟨"db", "user", "pw", "localhost", 5432, some "ledger"⟩
      = ⟨"db", "user", "pw", "localhost", 5432, some "ledger"⟩ :=
  ⟨((claim_C10 ⟨"db", "user", "pw", "localhost", 5432, none⟩).1 rfl).1,
   (claim_C10 ⟨"db", "user", "pw", "localhost", 5432, some "ledger"⟩).2 (by decide)⟩

